import Mathlib

/-!
# Verification of the vmel tokenizer (src/src/tokenizer.c)

Shallow embedding of the hand-written lexer and token store of the vmel
scripting language front end. Buffers are modelled as `List Char`, holding
the characters of a NUL-terminated C string up to (not including) its
terminator; reading the terminator corresponds to reaching the end of the
list. Machine-level failures (out-of-bounds writes and reads, dereferences
of NULL or uninitialized pointers, `strcmp` on a NULL argument) are modelled
by explicit `ub` results: once the C program performs one of those, its
behaviour is undefined, so the model stops there.

The token struct and manager layout used by tokenizer.c live in a
`tokens.h` that is not part of the sources at hand (the `tokenizer.h`
that is present declares a different, newer layout); the fields below are
the ones tokenizer.c itself reads and writes.
-/

namespace Vmel

/-! ## Character constants (tokens.h is missing; values follow the spec's
lexical grammar: `!=`, `<=`, `>=`, `><`, quotes, braces, parentheses,
arithmetic operators, the `$` identifier sigil and `#` comments). -/

def NEWLINE : Char := '\n'

def COMMENT : Char := '#'

def BANG : Char := '!'

def LPAREN : Char := '('

def RPAREN : Char := ')'

def LESSTHAN : Char := '<'

def GREATERTHAN : Char := '>'

def EQUAL : Char := '='

def PLUS : Char := '+'

def MINUS : Char := '-'

def ASTERISK : Char := '*'

def FSLASH : Char := '/'

def DQUOTE : Char := '"'

def VAR : Char := '$'

def LBRACE : Char := '{'

def RBRACE : Char := '}'

def NUL : Char := '\x00'

/-- `char store[100]` — the scratch accumulation buffer (tokenizer.c line 29). -/
def STORE_SIZE : Nat := 100

/-- Modelled from the spec: the token manager's backing array `toks` is a
fixed-size array (its size lives in the missing tokens.h; the spec calls it
"the source's fixed-size buffer"). Capacity modelled as 100 slots. -/
def TOKS_CAP : Nat := 100

/-- `#define KWORDS_SIZE 5` (src/src/include/tokenizer.h line 10). -/
def KWORDS_SIZE : Nat := 5

/-! ## Character classification (ASCII, as the C ctype functions behave in
the default locale; `is_valid_identifier` is modelled from the spec since
utils.c is not among the sources: letters, digits and underscore). -/

def isDigitChar (c : Char) : Bool := '0' ≤ c && c ≤ '9'

def isAlphaChar (c : Char) : Bool := ('a' ≤ c && c ≤ 'z') || ('A' ≤ c && c ≤ 'Z')

def isSpaceChar (c : Char) : Bool :=
  c = ' ' || c = '\t' || c = '\n' || c = '\x0b' || c = '\x0c' || c = '\r'

/-- Modelled from the spec: `is_identifier_char(c)`: true for ASCII letters,
digits, underscore (the implementation in utils.c is missing from the sources). -/
def is_valid_identifier (c : Char) : Bool :=
  isAlphaChar c || isDigitChar c || c = '_'

/-! ## Token and token manager (fields as used by tokenizer.c) -/

/-- The token record as tokenizer.c writes it in `TokenMgr_add_token`:
a type tag, the value text and `val_length = strlen(value)`.
There is no line-number field: the `TokenMgr_add_token` defined in
tokenizer.c takes no line argument and stores none. -/
structure Token where
  type : String
  value : String
  val_length : Nat
deriving DecidableEq, Repr

/-- The token manager as tokenizer.c uses it: an array of token pointers
`toks` filled up to `tok_ctr` (represented as the list of live tokens, so
`tok_ctr` is `toks.length`), and the traversal cursor `curr_tok`, a pointer
into the array (represented by the index it points at, `none` for NULL). -/
structure TokenMgr where
  toks : List Token
  curr_tok : Option Nat
deriving DecidableEq, Repr

/-- Outcome of a C function returning `Token *`: the NULL pointer, a live
token, or undefined behaviour (dereference of NULL / read of an
uninitialized or out-of-bounds slot). -/
inductive TokRes where
  | null
  | ub
  | tok (t : Token)
deriving DecidableEq, Repr

/-- `TokenMgr_new`: empty store, cursor NULL. -/
def TokenMgr_new : TokenMgr := { toks := [], curr_tok := none }

/-- `TokenMgr_add_token`: `toks[tok_ctr] = tmp; tok_ctr += 1` with no bound
check — writing at an index past the fixed array is an out-of-bounds write,
modelled as `none`. `val_length` is `strlen` of the copied value. -/
def TokenMgr_add_token (m : TokenMgr) (ty v : String) : Option TokenMgr :=
  if TOKS_CAP ≤ m.toks.length then none
  else some { m with toks := m.toks ++ [{ type := ty, value := v, val_length := v.length }] }

/-- `TokenMgr_current_token`: returns `*tok_mgr->curr_tok`. When the cursor
is the NULL pointer (fresh or reset store) this dereferences NULL. -/
def TokenMgr_current_token (m : TokenMgr) : TokRes :=
  match m.curr_tok with
  | none => .ub
  | some i =>
    match m.toks[i]? with
    | some t => .tok t
    | none => .ub

/-- `TokenMgr_next_token`. Cursor NULL: point it at slot 0 and return that
slot (on an empty store this returns the uninitialized `toks[0]`). Cursor at
the last live token (the pointer comparison `*curr_tok == toks[tok_ctr-1]`,
which for the distinct heap tokens of a store is the index comparison):
return NULL without moving. Otherwise advance one slot and return it. -/
def TokenMgr_next_token (m : TokenMgr) : TokRes × TokenMgr :=
  match m.curr_tok with
  | none =>
    match m.toks[0]? with
    | some t => (.tok t, { m with curr_tok := some 0 })
    | none => (.ub, { m with curr_tok := some 0 })
  | some i =>
    if i = m.toks.length - 1 then (.null, m)
    else
      match m.toks[i + 1]? with
      | some t => (.tok t, { m with curr_tok := some (i + 1) })
      | none => (.ub, { m with curr_tok := some (i + 1) })

/-- `TokenMgr_prev_token`, symmetric to `TokenMgr_next_token`: cursor NULL
sets it to `&toks[tok_ctr-1]` (an out-of-range slot when the store is
empty); cursor at slot 0 returns NULL without moving; otherwise steps back. -/
def TokenMgr_prev_token (m : TokenMgr) : TokRes × TokenMgr :=
  match m.curr_tok with
  | none =>
    match m.toks[m.toks.length - 1]? with
    | some t => (.tok t, { m with curr_tok := some (m.toks.length - 1) })
    | none => (.ub, m)
  | some i =>
    if i = 0 then (.null, m)
    else
      match m.toks[i - 1]? with
      | some t => (.tok t, { m with curr_tok := some (i - 1) })
      | none => (.ub, { m with curr_tok := some (i - 1) })

/-- `TokenMgr_reset_token`: cursor back to NULL. -/
def TokenMgr_reset_token (m : TokenMgr) : TokenMgr := { m with curr_tok := none }

/-! ## Keyword table -/

/-- `static const char *R_Keywords[KWORDS_SIZE] = { "print", "if", "else" }`:
an array of 5 slots with 3 initializers, so slots 3 and 4 hold NULL. -/
def R_Keywords : List (Option String) :=
  [some "print", some "if", some "else", none, none]

/-- The loop of `is_valid_keyword`: `strcmp(R_Keywords[x], str)` in order,
stopping at the first match. Reaching a NULL slot calls `strcmp` with a
NULL first argument — undefined behaviour, modelled as `none`. -/
def kwScan : List (Option String) → String → Option Bool
  | [], _ => some false
  | none :: _, _ => none
  | some t :: rest, s => if t = s then some true else kwScan rest s

/-- `is_valid_keyword`: NULL input returns 0, otherwise the table scan. -/
def is_valid_keyword : Option String → Option Bool
  | none => some false
  | some s => kwScan R_Keywords s

/-! ## The scanner (`build_tokens`) -/

/-- The scan-loop state: the unread suffix of the buffer (`buff + bidx`),
the token manager, the printable contents of the scratch buffer `store`,
the `error` flag and the line counter `lineno`. -/
structure ScanSt where
  rest : List Char
  mgr : TokenMgr
  store : List Char
  error : Bool
  lineno : Nat
deriving DecidableEq, Repr

/-- Outcome of a scan: return code 0 with the final store, return code 1
with the store and the fragment/line printed by the error message, or
undefined behaviour (a buffer overflow or out-of-bounds read). -/
inductive ScanOut where
  | ok (mgr : TokenMgr)
  | err (mgr : TokenMgr) (frag : String) (lineno : Nat)
  | ub
deriving DecidableEq, Repr

/-- The C string a char sequence denotes: its characters up to the first
NUL. This is what `printf("%s", store)` prints and `strcpy` copies. -/
def cstr (l : List Char) : String := (l.takeWhile (fun c => c ≠ NUL)).asString

/-- Continuation condition of the string-literal loop
(`c != DQUOTE && c != '\0' && c != NEWLINE`, tokenizer.c line 133). -/
def strCont (c : Char) : Bool := c ≠ DQUOTE && c ≠ NUL && c ≠ NEWLINE

/-- Continuation condition of the catch-all error loop (tokenizer.c lines
211-212). Note it does not stop at the NUL terminator. -/
def miscCont (c : Char) : Bool :=
  c ≠ COMMENT && c ≠ LBRACE && c ≠ RBRACE && c ≠ DQUOTE &&
  c ≠ VAR && c ≠ NEWLINE && c ≠ EQUAL

/-- Continuation condition of the comment-skipping loop
(`c != NEWLINE && c != '\0'`, tokenizer.c line 44). -/
def commCont (c : Char) : Bool := c ≠ NEWLINE && c ≠ NUL

/-- One iteration of the `build_tokens` loop body (tokenizer.c lines
41-218), for a state whose loop condition held: `c` is the current
character, `t` the characters after it, `go` the jump back to the loop
head with the updated state. The branches follow the C `if`/`else` chain
in order. Scratch-buffer writes are checked against `STORE_SIZE`: an
accumulated run of `n` characters writes cells `0..n` (terminator
included), so `n ≥ 100` writes out of bounds — `ub`. -/
def scanBranch (go : ScanSt → ScanOut) (st : ScanSt) (c : Char) (t : List Char) : ScanOut :=
  if c = COMMENT then
    go { st with rest := t.dropWhile commCont }
  else if c = NEWLINE then
    go { st with rest := t, lineno := st.lineno + 1 }
  else if c = BANG then
    if t.head? = some EQUAL then
      match TokenMgr_add_token st.mgr "OPERATOR" "NOTEQUALTO" with
      | none => .ub
      | some m => go { st with rest := t.tail, mgr := m }
    else
      match TokenMgr_add_token st.mgr "OPERATOR" "NOT" with
      | none => .ub
      | some m => go { st with rest := t, mgr := m }
  else if isSpaceChar c then
    go { st with rest := t }
  else if c = LPAREN then
    match TokenMgr_add_token st.mgr "LPAREN" "(" with
    | none => .ub
    | some m => go { st with rest := t, mgr := m }
  else if c = RPAREN then
    match TokenMgr_add_token st.mgr "RPAREN" ")" with
    | none => .ub
    | some m => go { st with rest := t, mgr := m }
  else if c = LESSTHAN then
    if t.head? = some EQUAL then
      match TokenMgr_add_token st.mgr "OPERATOR" "LTEQTO" with
      | none => .ub
      | some m => go { st with rest := t.tail, mgr := m }
    else
      match TokenMgr_add_token st.mgr "OPERATOR" "LESSTHAN" with
      | none => .ub
      | some m => go { st with rest := t, mgr := m }
  else if c = GREATERTHAN then
    if t.head? = some EQUAL then
      match TokenMgr_add_token st.mgr "OPERATOR" "GTEQTO" with
      | none => .ub
      | some m => go { st with rest := t.tail, mgr := m }
    else if t.head? = some LESSTHAN then
      match TokenMgr_add_token st.mgr "OPERATOR" "BETWEEN" with
      | none => .ub
      | some m => go { st with rest := t.tail, mgr := m }
    else
      match TokenMgr_add_token st.mgr "OPERATOR" "GREATERTHAN" with
      | none => .ub
      | some m => go { st with rest := t, mgr := m }
  else if c = EQUAL then
    if t.head? = some EQUAL then
      match TokenMgr_add_token st.mgr "OPERATOR" "EQUALTO" with
      | none => .ub
      | some m => go { st with rest := t.tail, mgr := m }
    else
      match TokenMgr_add_token st.mgr "OPERATOR" "EQUAL" with
      | none => .ub
      | some m => go { st with rest := t, mgr := m }
  else if c = PLUS then
    match TokenMgr_add_token st.mgr "OPERATOR" "PLUS" with
    | none => .ub
    | some m => go { st with rest := t, mgr := m }
  else if c = MINUS then
    match TokenMgr_add_token st.mgr "OPERATOR" "MINUS" with
    | none => .ub
    | some m => go { st with rest := t, mgr := m }
  else if c = ASTERISK then
    match TokenMgr_add_token st.mgr "OPERATOR" "ASTERISK" with
    | none => .ub
    | some m => go { st with rest := t, mgr := m }
  else if c = FSLASH then
    match TokenMgr_add_token st.mgr "OPERATOR" "FSLASH" with
    | none => .ub
    | some m => go { st with rest := t, mgr := m }
  else if c = DQUOTE then
    let content := t.takeWhile strCont
    let after := t.dropWhile strCont
    if STORE_SIZE ≤ content.length then .ub
    else if after.head? = some DQUOTE then
      match TokenMgr_add_token st.mgr "STRING" (cstr content) with
      | none => .ub
      | some m => go { st with rest := after.tail, mgr := m, store := [] }
    else
      go { st with rest := after, store := content, error := true }
  else if c = VAR then
    let content := t.takeWhile is_valid_identifier
    if STORE_SIZE ≤ content.length then .ub
    else
      match TokenMgr_add_token st.mgr "IDENTIFIER" (cstr content) with
      | none => .ub
      | some m =>
        go { st with rest := t.dropWhile is_valid_identifier, mgr := m, store := [] }
  else if isDigitChar c then
    let content := c :: t.takeWhile isDigitChar
    if STORE_SIZE ≤ content.length then .ub
    else
      match TokenMgr_add_token st.mgr "INTEGER" (cstr content) with
      | none => .ub
      | some m =>
        go { st with rest := t.dropWhile isDigitChar, mgr := m, store := [] }
  else if c = LBRACE then
    match t with
    | [] =>
      -- c = buff[++bidx] reads the terminator, which is not an
      -- identifier character: store gets '\0' and error is set.
      go { st with rest := [], store := [NUL], error := true }
    | c2 :: t2 =>
      if is_valid_identifier c2 then
        let content := c2 :: t2.takeWhile is_valid_identifier
        let after := t2.dropWhile is_valid_identifier
        if STORE_SIZE ≤ content.length then .ub
        else if after.head? = some RBRACE then
          match TokenMgr_add_token st.mgr "GROUP" (cstr content) with
          | none => .ub
          | some m =>
            go { st with rest := after.tail, mgr := m, store := [] }
        else
          go { st with rest := after, store := content, error := true }
      else
        go { st with rest := c2 :: t2, store := [c2], error := true }
  else if isAlphaChar c then
    let content := c :: t.takeWhile is_valid_identifier
    let after := t.dropWhile is_valid_identifier
    if STORE_SIZE ≤ content.length then .ub
    else
      match is_valid_keyword (some (cstr content)) with
      | none => .ub
      | some true =>
        match TokenMgr_add_token st.mgr "KEYWORD" (cstr content) with
        | none => .ub
        | some m => go { st with rest := after, mgr := m, store := [] }
      | some false =>
        go { st with rest := after, store := content, error := true }
  else
    let content := c :: t.takeWhile miscCont
    let after := t.dropWhile miscCont
    if content.contains NUL then .ub
    else if after = [] then .ub
    else if STORE_SIZE ≤ content.length then .ub
    else go { st with rest := after, store := content, error := true }

/-- The `while (buff[bidx] != '\0' && !error)` loop of `build_tokens`
(tokenizer.c lines 40-219) followed by the final error report (lines
221-224). Branches that set `error` and `continue` re-enter the loop with
the flag set, exactly as the C loop re-tests its condition. `fuel` only
bounds the recursion: every iteration either consumes at least one
character or sets `error`, so `rest.length + 1` is always enough and the
fuel-exhausted value (`ub`) is never reached from `build_tokens`. -/
def scanLoopF (fuel : Nat) (st : ScanSt) : ScanOut :=
  if st.error then .err st.mgr (cstr st.store) st.lineno
  else
    match st.rest with
    | [] => .ok st.mgr
    | c :: t =>
      match fuel with
      | 0 => .ub
      | fuel + 1 => scanBranch (scanLoopF fuel) st c t

/-- `build_tokens` run on a non-NULL buffer and manager: the scan loop from
`bidx = 0`, `stctr = 0`, `error = 0`, `lineno = 1`. -/
def scanFrom (m : TokenMgr) (b : List Char) : ScanOut :=
  scanLoopF (b.length + 1) { rest := b, mgr := m, store := [], error := false, lineno := 1 }

/-- Scan into a fresh store, as main.c does after `TokenMgr_new()`. -/
def scan (b : List Char) : ScanOut := scanFrom TokenMgr_new b

/-- Result of a `build_tokens` call: the returned status code together with
the state of the caller's store afterwards, or undefined behaviour. -/
inductive BuildOut where
  | ret (code : Nat) (mgr : Option TokenMgr)
  | ub
deriving DecidableEq, Repr

/-- `build_tokens(buff, tokmgr)` including the NULL guards of tokenizer.c
lines 16-24: a NULL buffer or NULL manager returns 1 at once, before any
scanning, leaving the store untouched. -/
def build_tokens (buff : Option (List Char)) (tokmgr : Option TokenMgr) : BuildOut :=
  match buff with
  | none => .ret 1 tokmgr
  | some b =>
    match tokmgr with
    | none => .ret 1 none
    | some m =>
      match scanFrom m b with
      | .ok m2 => .ret 0 (some m2)
      | .err m2 _ _ => .ret 1 (some m2)
      | .ub => .ub

/-! ## Shared concrete data -/

/-- A sample token, as `build_tokens` would produce for the keyword `if`. -/
def tkIf : Token := { type := "KEYWORD", value := "if", val_length := 2 }

/-- A second sample token, produced for the integer literal `7`. -/
def tkSeven : Token := { type := "INTEGER", value := "7", val_length := 1 }

/-! ## Claims -/

/-- **C1.** The claim says every emitted token carries the 1-based line of
its first character. The code drops the line: `TokenMgr_add_token`
(tokenizer.c lines 241-254) receives no line argument and the stored token
has no line field, although the in-tree header documents a `tok_lineno`
parameter and a `lineno` field. Scanning `"+"` (token on line 1) and
`"\n+"` (token on line 2) yields literally identical stores: the `PLUS`
token cannot be carrying its line number. -/
theorem c1_plus_token_same_with_and_without_newline :
    scan ['\n', '+'] =
      ScanOut.ok { toks := [{ type := "OPERATOR", value := "PLUS", val_length := 4 }],
                   curr_tok := none } ∧
    scan ['+'] =
      ScanOut.ok { toks := [{ type := "OPERATOR", value := "PLUS", val_length := 4 }],
                   curr_tok := none } :=
  ⟨rfl, rfl⟩

/-- **C2.** The claim says overlong token text yields an
`OverlongTokenError` instead of undefined behaviour. The scratch buffer is
`char store[100]` with no bound check, so a string literal of 100
characters makes the scanner write past the buffer: the scan is undefined
behaviour, not a reported error. -/
theorem c2_overlong_literal_scratch_overflow :
    scan ('"' :: (List.replicate 100 'a' ++ ['"'])) = ScanOut.ub := rfl

/-- **C3.** The claim says `is_valid_keyword` returns false, without any
null read, for empty and non-keyword input. The three keywords and NULL
input behave as claimed, but `KWORDS_SIZE` is 5 while `R_Keywords` has
three initializers, so any non-matching scan (including the empty string)
reaches `R_Keywords[3] = NULL` and calls `strcmp(NULL, str)` — a null
read, modelled as `none`. -/
theorem c3_is_valid_keyword_eval :
    is_valid_keyword (some "print") = some true ∧
    is_valid_keyword (some "if") = some true ∧
    is_valid_keyword (some "else") = some true ∧
    is_valid_keyword none = some false ∧
    is_valid_keyword (some "") = none ∧
    is_valid_keyword (some "foo") = none :=
  ⟨rfl, rfl, rfl, rfl, rfl, rfl⟩

/-- **C4.** The claim says `current()` returns "none" whenever the cursor
is unset, including on a fresh store. The code returns
`*tok_mgr->curr_tok` without the NULL check that `next`/`prev` perform, so
a fresh store's NULL cursor is dereferenced — undefined behaviour, not a
"none" result. With the cursor set it does return the token at the cursor. -/
theorem c4_current_token_unset_cursor :
    TokenMgr_current_token TokenMgr_new = TokRes.ub ∧
    TokenMgr_current_token { toks := [tkIf], curr_tok := some 0 } = TokRes.tok tkIf :=
  ⟨rfl, rfl⟩

/-- **C5 counterexample.** The claim includes `N = 0`: on an empty store
the first `next()` is claimed to return "none". Instead the code sets the
cursor to slot 0 and returns the uninitialized `toks[0]` — not NULL. -/
theorem c5_next_on_empty_store_not_null :
    (TokenMgr_next_token { toks := [], curr_tok := none }).1 ≠ TokRes.null := by
  decide

/-- `k` successive `TokenMgr_next_token` calls: the list of returned
values and the final store state. -/
def nextN : Nat → TokenMgr → List TokRes × TokenMgr
  | 0, m => ([], m)
  | n + 1, m =>
    let r := TokenMgr_next_token m
    let rs := nextN n r.2
    (r.1 :: rs.1, rs.2)

/-- `k` successive `TokenMgr_prev_token` calls. -/
def prevN : Nat → TokenMgr → List TokRes × TokenMgr
  | 0, m => ([], m)
  | n + 1, m =>
    let r := TokenMgr_prev_token m
    let rs := prevN n r.2
    (r.1 :: rs.1, rs.2)

/-- From a cursor at slot `i` with `k` tokens still ahead, `k` `next` calls
return exactly the tokens after slot `i` in order and leave the cursor on
the last slot. -/
theorem nextN_from (toks : List Token) (i k : Nat) (h : i + k + 1 = toks.length) :
    nextN k { toks := toks, curr_tok := some i } =
      ((toks.drop (i + 1)).map TokRes.tok,
       { toks := toks, curr_tok := some (toks.length - 1) }) := by
  induction k generalizing i with
  | zero =>
    simp only [nextN]
    rw [show i + 1 = toks.length by omega, List.drop_length]
    simp [show i = toks.length - 1 by omega]
  | succ k ih =>
    have hlt : i + 1 < toks.length := by omega
    have hne : i ≠ toks.length - 1 := by omega
    have hstep : TokenMgr_next_token { toks := toks, curr_tok := some i } =
        (.tok toks[i + 1], { toks := toks, curr_tok := some (i + 1) }) := by
      simp [TokenMgr_next_token, hne, List.getElem?_eq_getElem hlt]
    have hdrop : toks.drop (i + 1) = toks[i + 1] :: toks.drop (i + 1 + 1) :=
      List.drop_eq_getElem_cons hlt
    simp only [nextN, hstep]
    rw [ih (i + 1) (by omega), hdrop]
    simp only [List.map_cons]

/-- From a cursor at slot `k`, `k` `prev` calls return the tokens before
slot `k` in reverse order and leave the cursor on slot 0. -/
theorem prevN_from (toks : List Token) (k : Nat) (hlt : k < toks.length) :
    prevN k { toks := toks, curr_tok := some k } =
      (((toks.take k).reverse).map TokRes.tok, { toks := toks, curr_tok := some 0 }) := by
  induction k with
  | zero => simp [prevN]
  | succ k ih =>
    have hlt' : k < toks.length := by omega
    have hstep : TokenMgr_prev_token { toks := toks, curr_tok := some (k + 1) } =
        (.tok toks[k], { toks := toks, curr_tok := some k }) := by
      simp [TokenMgr_prev_token, List.getElem?_eq_getElem hlt']
    have htake : toks.take (k + 1) = toks.take k ++ [toks[k]] := by
      rw [List.take_succ, List.getElem?_eq_getElem hlt']
      rfl
    simp only [prevN, hstep]
    rw [ih hlt', htake]
    simp only [List.reverse_append, List.reverse_singleton, List.singleton_append,
      List.map_cons]

/-- **C5 (amended).** Traversal law for a store holding at least one
token: from a freshly reset cursor, `N` `next()` calls return the `N`
tokens in append order and park the cursor on the last slot; the
`(N+1)`-th call returns NULL without moving the cursor. Symmetrically,
`N` `prev()` calls from a reset cursor return the tokens in reverse order
and park the cursor on slot 0, where a further call returns NULL without
moving.  (The claim's `N = 0` clause is false on the code, see the
counterexample `c5_next_on_empty_store_not_null`.) -/
theorem c5_traversal_law (toks : List Token) (c : Option Nat) (h : toks ≠ []) :
    nextN toks.length (TokenMgr_reset_token { toks := toks, curr_tok := c }) =
      (toks.map TokRes.tok, { toks := toks, curr_tok := some (toks.length - 1) }) ∧
    TokenMgr_next_token { toks := toks, curr_tok := some (toks.length - 1) } =
      (TokRes.null, { toks := toks, curr_tok := some (toks.length - 1) }) ∧
    prevN toks.length (TokenMgr_reset_token { toks := toks, curr_tok := c }) =
      (toks.reverse.map TokRes.tok, { toks := toks, curr_tok := some 0 }) ∧
    TokenMgr_prev_token { toks := toks, curr_tok := some 0 } =
      (TokRes.null, { toks := toks, curr_tok := some 0 }) := by
  obtain ⟨a, tl, rfl⟩ := List.exists_cons_of_ne_nil h
  have hreset : TokenMgr_reset_token { toks := a :: tl, curr_tok := c } =
      { toks := a :: tl, curr_tok := none } := rfl
  refine ⟨?_, ?_, ?_, ?_⟩
  · have hstep : TokenMgr_next_token { toks := a :: tl, curr_tok := none } =
        (.tok a, { toks := a :: tl, curr_tok := some 0 }) := by
      simp [TokenMgr_next_token]
    rw [hreset]
    simp only [List.length_cons, nextN, hstep]
    rw [nextN_from (a :: tl) 0 tl.length (by simp)]
    simp
  · simp [TokenMgr_next_token]
  · have hlst : (a :: tl).length - 1 < (a :: tl).length := by simp
    have hstep : TokenMgr_prev_token { toks := a :: tl, curr_tok := none } =
        (.tok ((a :: tl).get ⟨(a :: tl).length - 1, hlst⟩),
         { toks := a :: tl, curr_tok := some ((a :: tl).length - 1) }) := by
      simp [TokenMgr_prev_token, List.getElem?_eq_getElem hlst]
    have hrev : (a :: tl).reverse =
        ((a :: tl).get ⟨(a :: tl).length - 1, hlst⟩) ::
          (((a :: tl).take ((a :: tl).length - 1)).reverse) := by
      conv_lhs => rw [← List.dropLast_append_getLast (List.cons_ne_nil a tl)]
      rw [List.reverse_append, List.getLast_eq_getElem, List.dropLast_eq_take]
      simp
    rw [hreset]
    simp only [List.length_cons, Nat.add_sub_cancel] at hstep hrev ⊢
    simp only [prevN, hstep]
    rw [prevN_from (a :: tl) tl.length (by simp), hrev]
    simp
  · simp [TokenMgr_prev_token]

/-- Witness for C5 on a two-token store. -/
theorem c5_traversal_law_wit :
    ([tkIf, tkSeven] : List Token) ≠ [] ∧
    (nextN 2 (TokenMgr_reset_token { toks := [tkIf, tkSeven], curr_tok := some 0 }) =
       ([TokRes.tok tkIf, TokRes.tok tkSeven],
        { toks := [tkIf, tkSeven], curr_tok := some 1 }) ∧
     TokenMgr_next_token { toks := [tkIf, tkSeven], curr_tok := some 1 } =
       (TokRes.null, { toks := [tkIf, tkSeven], curr_tok := some 1 }) ∧
     prevN 2 (TokenMgr_reset_token { toks := [tkIf, tkSeven], curr_tok := some 0 }) =
       ([TokRes.tok tkSeven, TokRes.tok tkIf],
        { toks := [tkIf, tkSeven], curr_tok := some 0 }) ∧
     TokenMgr_prev_token { toks := [tkIf, tkSeven], curr_tok := some 0 } =
       (TokRes.null, { toks := [tkIf, tkSeven], curr_tok := some 0 })) :=
  ⟨by simp, c5_traversal_law [tkIf, tkSeven] (some 0) (by simp)⟩

/-- **C6.** The claim says `append` grows the backing storage and never
writes past its end. The code performs `toks[tok_ctr] = tmp` with no bound
check and no growth path, so appending to a store already holding
`TOKS_CAP` tokens writes past the fixed array — undefined behaviour
(modelled `none`), not a grown store and not an `AllocationError`. -/
theorem c6_add_token_full_store_oob (m : TokenMgr) (ty v : String)
    (h : TOKS_CAP ≤ m.toks.length) : TokenMgr_add_token m ty v = none := by
  simp [TokenMgr_add_token, h]

/-- Witness for C6 at a store holding 100 tokens. -/
theorem c6_add_token_full_store_oob_wit :
    TOKS_CAP ≤ ({ toks := List.replicate 100 tkIf, curr_tok := none } : TokenMgr).toks.length ∧
    TokenMgr_add_token { toks := List.replicate 100 tkIf, curr_tok := none } "OPERATOR" "PLUS"
      = none :=
  ⟨by simp [TOKS_CAP], c6_add_token_full_store_oob _ "OPERATOR" "PLUS" (by simp [TOKS_CAP])⟩

/-- The loop head `while (buff[bidx] != '\0' && !error)`: any state with
the error flag set is terminal, producing the error report unchanged. -/
theorem scanLoopF_error (f : Nat) (st : ScanSt) (h : st.error = true) :
    scanLoopF f st = ScanOut.err st.mgr (cstr st.store) st.lineno := by
  rw [scanLoopF.eq_def]
  simp only [h, if_true]

/-- **C7.** First-error-wins: the loop head re-tests
`buff[bidx] != '\0' && !error` (tokenizer.c line 40), so from any state
with the error flag set the scan consumes nothing further, appends no
token, and returns status 1 with the store as it was when the error was
set, printing the offending fragment and line (lines 221-224). -/
theorem c7_first_error_halts (f : Nat) (st : ScanSt) (h : st.error = true) :
    scanLoopF f st = ScanOut.err st.mgr (cstr st.store) st.lineno :=
  scanLoopF_error f st h

/-- Witness for C7 at a concrete errored state. -/
theorem c7_first_error_halts_wit :
    ({ rest := ['x'], mgr := TokenMgr_new, store := ['a', 'b'], error := true,
       lineno := 7 } : ScanSt).error = true ∧
    scanLoopF 3 { rest := ['x'], mgr := TokenMgr_new, store := ['a', 'b'], error := true,
                  lineno := 7 } = ScanOut.err TokenMgr_new "ab" 7 :=
  ⟨rfl, c7_first_error_halts 3 _ rfl⟩

/-- A scanning loop (`takeWhile`/`dropWhile`) characterized by the index
of its first stopping character: if everything among the first `j`
elements continues and position `j` (when it exists) stops, the loop
accumulates exactly the first `j` elements and leaves the rest. -/
theorem takeWhile_eq_take_of_stop (p : Char → Bool) :
    ∀ (l : List Char) (j : Nat),
      (∀ x ∈ l.take j, p x = true) →
      (∀ x, l[j]? = some x → p x = false) →
      l.takeWhile p = l.take j ∧ l.dropWhile p = l.drop j
  | [], j, _, _ => by simp
  | a :: t, 0, _, hstop => by
    have ha : p a = false := hstop a (by simp)
    simp [List.takeWhile_cons, List.dropWhile_cons, ha]
  | a :: t, j + 1, hpre, hstop => by
    have ha : p a = true := hpre a (by simp [List.take_succ_cons])
    have ih := takeWhile_eq_take_of_stop p t j
      (fun x hx => hpre x (by simp only [List.take_succ_cons, List.mem_cons]; exact Or.inr hx))
      (fun x hx => hstop x (by simpa using hx))
    simp [List.takeWhile_cons, List.dropWhile_cons, ha, ih.1, ih.2,
      List.take_succ_cons]

/-- `printf`/`strcpy` see the whole accumulated run when it contains no
NUL character. -/
theorem cstr_eq_asString (l : List Char) (h : ∀ x ∈ l, x ≠ NUL) :
    cstr l = l.asString := by
  unfold cstr
  congr 1
  induction l with
  | nil => rfl
  | cons a t ih =>
    have ha : a ≠ NUL := h a (by simp)
    have ih2 := ih (fun x hx => h x (List.mem_cons_of_mem a hx))
    rw [List.takeWhile_cons, if_pos (by simp [ha]), ih2]

set_option maxRecDepth 4096 in
/-- **C8 counterexample.** As universally stated the claim fails: a string
literal of 150 characters is not turned into a STRING token — the
unchecked scratch buffer `store[100]` overflows first (the C2 defect) and
the scan is undefined behaviour. -/
theorem c8_overlong_literal_not_string_token :
    scan ('"' :: (List.replicate 150 'a' ++ ['"'])) = ScanOut.ub := rfl

/-- **C8 (amended).** String-literal scanning, for literals shorter than
the scratch bound. Success: if position `j` after the opening quote holds
the next quote and nothing before it is a quote, a newline or a NUL, the
scanner emits exactly one STRING token whose value is those `j` characters
(quotes excluded) and resumes after the closing quote, on the same line,
with the scratch reset. Failure: if end-of-buffer or a newline comes at
position `j` before any quote, the scan stops with status 1 reporting the
accumulated text and the current line — the unterminated-string error. -/
theorem c8_string_literal_scan :
    (∀ (f : Nat) (m : TokenMgr) (s : List Char) (ln : Nat) (t : List Char) (j : Nat),
      m.toks.length < TOKS_CAP →
      j < STORE_SIZE →
      t[j]? = some DQUOTE →
      (∀ x ∈ t.take j, x ≠ DQUOTE ∧ x ≠ NUL ∧ x ≠ NEWLINE) →
      scanLoopF (f + 1)
          { rest := DQUOTE :: t, mgr := m, store := s, error := false, lineno := ln } =
        scanLoopF f
          { rest := t.drop (j + 1),
            mgr := { toks := m.toks ++ [{ type := "STRING", value := (t.take j).asString,
                                          val_length := j }],
                     curr_tok := m.curr_tok },
            store := [], error := false, lineno := ln }) ∧
    (∀ (m : TokenMgr) (s : List Char) (ln : Nat) (f : Nat) (t : List Char) (j : Nat),
      j < STORE_SIZE →
      (j = t.length ∨ t[j]? = some NEWLINE) →
      (∀ x ∈ t.take j, x ≠ DQUOTE ∧ x ≠ NUL ∧ x ≠ NEWLINE) →
      scanLoopF (f + 1)
          { rest := DQUOTE :: t, mgr := m, store := s, error := false, lineno := ln } =
        ScanOut.err m ((t.take j).asString) ln) := by
  constructor
  · intro f m s ln t j hm hsz hj hpre
    have hjlt : j < t.length := by
      by_contra hge
      rw [List.getElem?_eq_none (by omega)] at hj
      exact Option.noConfusion hj
    have hb := takeWhile_eq_take_of_stop strCont t j
      (fun x hx => by
        obtain ⟨h1, h2, h3⟩ := hpre x hx
        simp [strCont, h1, h2, h3])
      (fun x hx => by
        rw [hj] at hx
        have hx2 := Option.some.inj hx
        subst hx2
        decide)
    have hstep : scanLoopF (f + 1)
        { rest := DQUOTE :: t, mgr := m, store := s, error := false, lineno := ln } =
        (if STORE_SIZE ≤ (t.takeWhile strCont).length then ScanOut.ub
         else if (t.dropWhile strCont).head? = some DQUOTE then
           match TokenMgr_add_token m "STRING" (cstr (t.takeWhile strCont)) with
           | none => ScanOut.ub
           | some m2 => scanLoopF f { rest := (t.dropWhile strCont).tail, mgr := m2,
                                      store := [], error := false, lineno := ln }
         else scanLoopF f { rest := t.dropWhile strCont, mgr := m,
                            store := t.takeWhile strCont, error := true, lineno := ln }) := rfl
    have hnul : ∀ x ∈ t.take j, x ≠ NUL := fun x hx => (hpre x hx).2.1
    have hvl : ((t.take j).asString).length = j := by
      rw [List.length_asString, List.length_take, Nat.min_eq_left (le_of_lt hjlt)]
    have hadd : TokenMgr_add_token m "STRING" (cstr (t.take j)) =
        some { toks := m.toks ++ [{ type := "STRING", value := (t.take j).asString,
                                    val_length := j }],
               curr_tok := m.curr_tok } := by
      rw [cstr_eq_asString _ hnul]
      unfold TokenMgr_add_token
      rw [if_neg (Nat.not_le.mpr hm), hvl]
    rw [hstep, hb.1, hb.2]
    have hlen : ¬ (STORE_SIZE ≤ (t.take j).length) := by
      have := List.length_take_le j t
      omega
    rw [if_neg hlen, List.head?_drop, hj, if_pos rfl, hadd, List.tail_drop]
  · intro m s ln f t j hsz hstop hpre
    have hb := takeWhile_eq_take_of_stop strCont t j
      (fun x hx => by
        obtain ⟨h1, h2, h3⟩ := hpre x hx
        simp [strCont, h1, h2, h3])
      (fun x hx => by
        cases hstop with
        | inl he =>
          rw [List.getElem?_eq_none (by omega)] at hx
          exact Option.noConfusion hx
        | inr hn =>
          rw [hn] at hx
          have hx2 := Option.some.inj hx
          subst hx2
          decide)
    have hstep : scanLoopF (f + 1)
        { rest := DQUOTE :: t, mgr := m, store := s, error := false, lineno := ln } =
        (if STORE_SIZE ≤ (t.takeWhile strCont).length then ScanOut.ub
         else if (t.dropWhile strCont).head? = some DQUOTE then
           match TokenMgr_add_token m "STRING" (cstr (t.takeWhile strCont)) with
           | none => ScanOut.ub
           | some m2 => scanLoopF f { rest := (t.dropWhile strCont).tail, mgr := m2,
                                      store := [], error := false, lineno := ln }
         else scanLoopF f { rest := t.dropWhile strCont, mgr := m,
                            store := t.takeWhile strCont, error := true, lineno := ln }) := rfl
    have hnul : ∀ x ∈ t.take j, x ≠ NUL := fun x hx => (hpre x hx).2.1
    rw [hstep, hb.1, hb.2]
    have hlen : ¬ (STORE_SIZE ≤ (t.take j).length) := by
      have := List.length_take_le j t
      omega
    have hhd : ¬ ((t.drop j).head? = some DQUOTE) := by
      rw [List.head?_drop]
      cases hstop with
      | inl he =>
        rw [List.getElem?_eq_none (by omega)]
        simp
      | inr hn =>
        rw [hn]
        simp [NEWLINE, DQUOTE]
    rw [if_neg hlen, if_neg hhd,
      scanLoopF_error f { rest := t.drop j, mgr := m, store := t.take j,
                          error := true, lineno := ln } rfl,
      cstr_eq_asString _ hnul]

/-- Witness for C8: the literal `"ab"` scans to one STRING token `ab`, and
the unterminated `"abc` stops with the fragment `abc` on line 1. -/
theorem c8_string_literal_scan_wit :
    (TokenMgr_new.toks.length < TOKS_CAP ∧ 2 < STORE_SIZE ∧
     (['a', 'b', '"'] : List Char)[2]? = some DQUOTE ∧
     (∀ x ∈ (['a', 'b', '"'] : List Char).take 2, x ≠ DQUOTE ∧ x ≠ NUL ∧ x ≠ NEWLINE) ∧
     scanLoopF 2 { rest := DQUOTE :: ['a', 'b', '"'], mgr := TokenMgr_new, store := [],
                   error := false, lineno := 1 } =
       scanLoopF 1 { rest := [],
                     mgr := { toks := [{ type := "STRING", value := "ab", val_length := 2 }],
                              curr_tok := none },
                     store := [], error := false, lineno := 1 }) ∧
    (3 < STORE_SIZE ∧
     (3 = (['a', 'b', 'c'] : List Char).length ∨
       (['a', 'b', 'c'] : List Char)[3]? = some NEWLINE) ∧
     (∀ x ∈ (['a', 'b', 'c'] : List Char).take 3, x ≠ DQUOTE ∧ x ≠ NUL ∧ x ≠ NEWLINE) ∧
     scanLoopF 4 { rest := DQUOTE :: ['a', 'b', 'c'], mgr := TokenMgr_new, store := [],
                   error := false, lineno := 1 } = ScanOut.err TokenMgr_new "abc" 1) :=
  ⟨⟨by decide, by decide, by decide, by decide,
    c8_string_literal_scan.1 1 TokenMgr_new [] 1 ['a', 'b', '"'] 2
      (by decide) (by decide) (by decide) (by decide)⟩,
   ⟨by decide, by decide, by decide,
    c8_string_literal_scan.2 TokenMgr_new [] 1 3 ['a', 'b', 'c'] 3
      (by decide) (by decide) (by decide)⟩⟩

/-- **C9.** Two-character operator maximal munch: `!=`, `<=`, `>=`, `><`
each scan to exactly one combined OPERATOR token (so both characters were
consumed), and the bare lead characters scan to the single-character
operator tokens. -/
theorem c9_operator_maximal_munch :
    scan ['!', '='] =
      ScanOut.ok { toks := [{ type := "OPERATOR", value := "NOTEQUALTO", val_length := 10 }],
                   curr_tok := none } ∧
    scan ['<', '='] =
      ScanOut.ok { toks := [{ type := "OPERATOR", value := "LTEQTO", val_length := 6 }],
                   curr_tok := none } ∧
    scan ['>', '='] =
      ScanOut.ok { toks := [{ type := "OPERATOR", value := "GTEQTO", val_length := 6 }],
                   curr_tok := none } ∧
    scan ['>', '<'] =
      ScanOut.ok { toks := [{ type := "OPERATOR", value := "BETWEEN", val_length := 7 }],
                   curr_tok := none } ∧
    scan ['!'] =
      ScanOut.ok { toks := [{ type := "OPERATOR", value := "NOT", val_length := 3 }],
                   curr_tok := none } ∧
    scan ['<'] =
      ScanOut.ok { toks := [{ type := "OPERATOR", value := "LESSTHAN", val_length := 8 }],
                   curr_tok := none } ∧
    scan ['>'] =
      ScanOut.ok { toks := [{ type := "OPERATOR", value := "GREATERTHAN", val_length := 11 }],
                   curr_tok := none } :=
  ⟨rfl, rfl, rfl, rfl, rfl, rfl, rfl⟩

/-- **C10.** A NULL buffer or NULL token manager makes `build_tokens`
return 1 immediately (tokenizer.c lines 16-24), before the scan loop: no
token is appended and the caller's store is exactly as passed. -/
theorem c10_null_arguments :
    (∀ m : Option TokenMgr, build_tokens none m = BuildOut.ret 1 m) ∧
    (∀ b : List Char, build_tokens (some b) none = BuildOut.ret 1 none) :=
  ⟨fun _ => rfl, fun _ => rfl⟩

end Vmel
